import Mathlib

/-!
Verification of the GoIT_H7 address-book program.

This file is a shallow embedding of `adress_book/book.py` and
`adress_book/handler_functions.py` into Lean, followed by theorems that
check the program's natural-language specification against the code.
Python strings are modelled as Lean `String` (a sequence of Unicode code
points, as in CPython); machine-level concerns do not arise.  Fallible
Python code (raising exceptions) is modelled with `Except PyErr`;
the `input_error` decorator, which converts every exception into a
human-readable text, is folded into each decorated operation exactly as it
behaves in the source, with a comment at every branch where an exception
is raised and swallowed.
-/

/-- Python exception values relevant to this program, with the message text
`str(err)` they carry. -/
inductive PyErr where
  | valueError (msg : String)
  | keyError (msg : String)
  | indexError (msg : String)
  | typeError (msg : String)
  | overflowError (msg : String)
  deriving DecidableEq, Repr

/-- Error-to-text conversion performed by the `input_error` decorator
(book.py): `except ValueError` yields "Provide name and phone please.",
`except KeyError` yields "Contact not found.", `except IndexError` yields
"Not enough arguments.", and the final `except Exception as err` yields
"Error: " followed by `str(err)`. -/
def input_error_msg : PyErr → String
  | .valueError _ => "Provide name and phone please."
  | .keyError _ => "Contact not found."
  | .indexError _ => "Not enough arguments."
  | .typeError m => "Error: " ++ m
  | .overflowError m => "Error: " ++ m

/-- ASCII decimal digit 0-9 (code points 48..57). -/
def isDigitChar (c : Char) : Bool :=
  48 ≤ c.toNat && c.toNat ≤ 57

/-- Python `str.isdigit` on a single character, over the alphabet used in
this development: on ASCII characters it holds exactly for 0-9, and the
compatibility superscript digits (such as U+00B2, superscript two) are also
isdigit-true in Python because they have Unicode property
Numeric_Type=Digit.  Python accepts further non-ASCII digit characters
that never occur below. -/
def pyIsDigit (c : Char) : Bool :=
  isDigitChar c || c = '¹' || c = '²' || c = '³'

/-- Python `str.isdigit` on a whole string: nonempty, and every character
is a digit character. -/
def pyStrIsDigit (s : String) : Bool :=
  !s.isEmpty && s.data.all pyIsDigit

/-- `Phone` (book.py): a phone-number field storing its raw text in
`value` (inherited from `Field`). -/
structure Phone where
  value : String
  deriving DecidableEq, Repr

/-- `Phone.__init__` (book.py): raises `ValueError` when the length is not
10, then when `value.isdigit()` is false; otherwise stores the value. -/
def Phone.mk? (value : String) : Except PyErr Phone :=
  if value.length ≠ 10 then
    .error (.valueError "The lenth of the telephon number must be 10 numbers.")
  else if !pyStrIsDigit value then
    .error (.valueError "Value must consist of numbers.")
  else
    .ok ⟨value⟩

/-- `Field.__str__` (book.py): `str(self.value)`, the stored text itself. -/
def Phone.str (p : Phone) : String := p.value

/-- A `datetime.date` value: calendar year, month, day.  Python restricts
dates to years 1..9999; validity is checked by `isValidDate` at exactly the
points where Python checks it. -/
structure PyDate where
  year : Nat
  month : Nat
  day : Nat
  deriving DecidableEq, Repr

/-- Gregorian leap-year rule, as in `datetime`. -/
def isLeap (y : Nat) : Bool :=
  y % 4 = 0 && (y % 100 ≠ 0 || y % 400 = 0)

/-- number of days in month `m` of year `y` (m in 1..12). -/
def daysInMonth (y m : Nat) : Nat :=
  if m = 2 then (if isLeap y then 29 else 28)
  else if m = 4 ∨ m = 6 ∨ m = 9 ∨ m = 11 then 30
  else 31

/-- the `datetime.date` validity condition: years 1..9999 and a real
calendar day. -/
def isValidDate (y m d : Nat) : Bool :=
  1 ≤ y && y ≤ 9999 && 1 ≤ m && m ≤ 12 && 1 ≤ d && d ≤ daysInMonth y m

/-- days contributed by the months strictly before `m` in year `y`. -/
def daysBeforeMonth (y m : Nat) : Nat :=
  (List.range (m - 1)).foldl (fun acc i => acc + daysInMonth y (i + 1)) 0

/-- proleptic-Gregorian ordinal of a date, as in `date.toordinal()`:
0001-01-01 has ordinal 1. -/
def toOrdinal (d : PyDate) : Nat :=
  365 * (d.year - 1) + (d.year - 1) / 4 + (d.year - 1) / 400
    + daysBeforeMonth d.year d.month + d.day - (d.year - 1) / 100

/-- `date.weekday()`: Monday = 0 .. Sunday = 6.  0001-01-01 (ordinal 1) was
a Monday in the proleptic Gregorian calendar. -/
def weekday (d : PyDate) : Nat := (toOrdinal d + 6) % 7

/-- comparison `a <= b` on dates (`datetime.date` orders by calendar day;
on valid dates this coincides with comparing ordinals). -/
def dateLe (a b : PyDate) : Bool := toOrdinal a ≤ toOrdinal b

/-- comparison `a < b` on dates. -/
def dateLt (a b : PyDate) : Bool := toOrdinal a < toOrdinal b

/-- successor day in the proleptic Gregorian calendar (defined for every
year; the `datetime` range check is applied separately in `dateAdd`). -/
def nextDay (d : PyDate) : PyDate :=
  if d.day < daysInMonth d.year d.month then ⟨d.year, d.month, d.day + 1⟩
  else if d.month < 12 then ⟨d.year, d.month + 1, 1⟩
  else ⟨d.year + 1, 1, 1⟩

/-- `d + timedelta(days = n)` without the range check. -/
def addDays (d : PyDate) (n : Nat) : PyDate := Nat.repeat nextDay n d

/-- `d + timedelta(days = n)` as Python performs it: raises
`OverflowError` when the result would pass `date.max` (9999-12-31). -/
def dateAdd (d : PyDate) (n : Nat) : Except PyErr PyDate :=
  let r := addDays d n
  if r.year ≤ 9999 then .ok r
  else .error (.overflowError "date value out of range")

/-- `date.replace(year = y)`: raises `ValueError` when the resulting
triple is not a valid date (for example Feb 29 carried into a non-leap
year, or a year outside `datetime`'s range; the exact message differs by
case but every such message is discarded by `input_error`). -/
def replaceYear (d : PyDate) (y : Nat) : Except PyErr PyDate :=
  if isValidDate y d.month d.day then .ok ⟨y, d.month, d.day⟩
  else .error (.valueError "day is out of range for month")

/-- digit character to its value (meaningful for code points 48..57). -/
def digitVal (c : Char) : Nat := c.toNat - 48

/-- digit for `n % 10`. -/
def natDigitChar (n : Nat) : Char := Char.ofNat (48 + n % 10)

/-- two-digit zero-padded decimal rendering (for n < 100). -/
def pad2 (n : Nat) : String := ⟨[natDigitChar (n / 10), natDigitChar n]⟩

/-- four-digit zero-padded decimal rendering (for n < 10000). -/
def pad4 (n : Nat) : String :=
  ⟨[natDigitChar (n / 1000), natDigitChar (n / 100), natDigitChar (n / 10), natDigitChar n]⟩

/-- `date.strftime("%d.%m.%Y")` for dates with four-digit years. -/
def strftime_dmY (d : PyDate) : String :=
  pad2 d.day ++ "." ++ pad2 d.month ++ "." ++ pad4 d.year

/-- The `%d` field as compiled by CPython `_strptime`: the regular
expression `(3[01]|[12]\d|0[1-9]|[1-9])`, i.e. a two-digit group with
value 01..31, or a single digit 1..9.  Matching is greedy (the two-digit
alternatives come first); because the character after the day in the
format `%d.%m.%Y` is a literal dot, a failed two-digit attempt can never
be rescued by the one-digit alternative except when the second character
is not a digit, which is exactly how this function falls through.
Zero-padding is accepted but NOT required. -/
def parseDay : List Char → Option (Nat × List Char)
  | a :: b :: rest =>
    if isDigitChar a ∧ isDigitChar b
        ∧ 1 ≤ 10 * digitVal a + digitVal b ∧ 10 * digitVal a + digitVal b ≤ 31 then
      some (10 * digitVal a + digitVal b, rest)
    else if isDigitChar a ∧ 1 ≤ digitVal a then
      some (digitVal a, b :: rest)
    else none
  | [a] =>
    if isDigitChar a ∧ 1 ≤ digitVal a then some (digitVal a, []) else none
  | [] => none

/-- The `%m` field as compiled by CPython `_strptime`: the regular
expression `(1[0-2]|0[1-9]|[1-9])`, i.e. a two-digit group with value
01..12, or a single digit 1..9; greedy, like `parseDay`. -/
def parseMonth : List Char → Option (Nat × List Char)
  | a :: b :: rest =>
    if isDigitChar a ∧ isDigitChar b
        ∧ 1 ≤ 10 * digitVal a + digitVal b ∧ 10 * digitVal a + digitVal b ≤ 12 then
      some (10 * digitVal a + digitVal b, rest)
    else if isDigitChar a ∧ 1 ≤ digitVal a then
      some (digitVal a, b :: rest)
    else none
  | [a] =>
    if isDigitChar a ∧ 1 ≤ digitVal a then some (digitVal a, []) else none
  | [] => none

/-- `datetime.strptime(s, "%d.%m.%Y")`, matching part: CPython compiles
the format to the regex `(%d).(%m).(\d\d\d\d)` (fields as in `parseDay`
and `parseMonth`, the year exactly four digits) and fails when unconverted
data remains, so the match must consume the whole string.  Returns the
matched `(day, month, year)` numbers. -/
def strptimeDMY (s : String) : Option (Nat × Nat × Nat) :=
  match parseDay s.data with
  | none => none
  | some (d, r1) =>
    match r1 with
    | '.' :: r2 =>
      match parseMonth r2 with
      | none => none
      | some (m, r3) =>
        match r3 with
        | '.' :: y1 :: y2 :: y3 :: y4 :: r4 =>
          if isDigitChar y1 ∧ isDigitChar y2 ∧ isDigitChar y3 ∧ isDigitChar y4 ∧ r4 = [] then
            some (d, m, 1000 * digitVal y1 + 100 * digitVal y2 + 10 * digitVal y3 + digitVal y4)
          else none
        | _ => none
    | _ => none

/-- `Birthday` (book.py): stores the raw text in `value`; `date` is the
parsed calendar date.  In the source, `date` is a property recomputed from
the immutable `value` on each access; caching the (identical) parse result
at construction is equivalent. -/
structure Birthday where
  value : String
  date : PyDate
  deriving DecidableEq, Repr

/-- `Birthday.__init__` (book.py): `datetime.strptime(value, "%d.%m.%Y")`,
which after the regex match also constructs `datetime(year, month, day)`
and thereby rejects impossible calendar dates; any `ValueError` is
re-raised as `ValueError('Invalid date format. Use DD.MM.YYYY')`. -/
def Birthday.mk? (value : String) : Except PyErr Birthday :=
  match strptimeDMY value with
  | some (d, m, y) =>
    if isValidDate y m d then .ok ⟨value, ⟨y, m, d⟩⟩
    else .error (.valueError "Invalid date format. Use DD.MM.YYYY")
  | none => .error (.valueError "Invalid date format. Use DD.MM.YYYY")

/-- `Record` (book.py): one contact, with a name (the `Name` field's stored
text), an ordered list of phones, and an optional birthday. -/
structure Record where
  name : String
  phones : List Phone
  birthday : Option Birthday
  deriving DecidableEq, Repr

/-- `Record.__init__`: name set, phone list empty, no birthday. -/
def Record.init (name : String) : Record := ⟨name, [], none⟩

/-- `Record.find_phone` (book.py): the first stored phone whose value
equals `phone`, else `None`.  (The body cannot raise, so its decorator is
irrelevant.) -/
def Record.find_phone (r : Record) (phone : String) : Option Phone :=
  r.phones.find? (fun p => p.value == phone)

/-- removal of the first list element with the given phone value.  This is
what `self.phones.remove(find)` does when `find` is the object returned by
`find_phone`: `list.remove` deletes the first element equal to `find`,
`Phone` objects compare by identity, and `find` is precisely the first
element whose value matches. -/
def eraseFirstPhone : List Phone → String → List Phone
  | [], _ => []
  | p :: rest, v => if p.value = v then rest else p :: eraseFirstPhone rest v

/-- `Record.remove_phone` with its `@input_error` wrapper: when
`find_phone` finds a phone, the first occurrence of that value is removed;
when it returns `None`, `list.remove(None)` raises `ValueError`, the
decorator swallows it, and the record is unchanged. -/
def Record.remove_phone (r : Record) (phone : String) : Record :=
  match r.find_phone phone with
  | some _ => { r with phones := eraseFirstPhone r.phones phone }
  | none => r

/-- `Record.edit_phone` with its `@input_error` wrapper, state part: when
no stored phone equals `old_phone`, the body raises
`ValueError("Old number not found.")`, which the decorator swallows with
the record unchanged.  Otherwise `remove_phone(old_phone)` runs FIRST, and
only afterwards is `Phone(new_phone)` constructed; when that constructor
raises, the decorator swallows the error, but the removal has already
happened. -/
def Record.edit_phone (r : Record) (old_phone new_phone : String) : Record :=
  if r.phones.any (fun p => p.value == old_phone) then
    let r1 := r.remove_phone old_phone
    match Phone.mk? new_phone with
    | .ok p => { r1 with phones := r1.phones ++ [p] }
    | .error _ => r1
  else r

/-- `Record.add_phone` with its `@input_error` wrapper: append
`Phone(phone)`; a `ValueError` raised by the constructor is swallowed and
the record is unchanged. -/
def Record.add_phone (r : Record) (phone : String) : Record :=
  match Phone.mk? phone with
  | .ok p => { r with phones := r.phones ++ [p] }
  | .error _ => r

/-- `Record.add_birthday` with its `@input_error` wrapper: set
`self.birthday = Birthday(args)`; a `ValueError` from the constructor is
swallowed and the record keeps its previous birthday. -/
def Record.add_birthday (r : Record) (s : String) : Record :=
  match Birthday.mk? s with
  | .ok b => { r with birthday := some b }
  | .error _ => r

/-- `Record.__str__` (book.py): the birthday clause appears only when a
birthday is set (`Birthday` renders via `Field.__str__` as its raw
value). -/
def Record.str (r : Record) : String :=
  match r.birthday with
  | some b =>
    "Contact name: " ++ r.name ++ ", phones: "
      ++ String.intercalate "; " (r.phones.map Phone.value)
      ++ ", birthday: " ++ b.value
  | none =>
    "Contact name: " ++ r.name ++ ", phones: "
      ++ String.intercalate "; " (r.phones.map Phone.value)

/-- `AddressBook` (book.py, a `UserDict`): an insertion-ordered mapping
from name to record, modelled as an association list the way `dict`
maintains it (update keeps position, fresh keys append at the end). -/
structure AddressBook where
  data : List (String × Record)
  deriving DecidableEq, Repr

/-- `self.data[k] = v` on a `dict`: replace the value at an existing key
(keeping its position), else append the new pair at the end. -/
def dictSet : List (String × Record) → String → Record → List (String × Record)
  | [], k, v => [(k, v)]
  | (k0, v0) :: rest, k, v =>
    if k0 = k then (k, v) :: rest else (k0, v0) :: dictSet rest k v

/-- `del self.data[k]` on a `dict`: remove the entry with the key. -/
def dictDel : List (String × Record) → String → List (String × Record)
  | [], _ => []
  | (k0, v0) :: rest, k =>
    if k0 = k then rest else (k0, v0) :: dictDel rest k

/-- `AddressBook.add_record` (book.py):
`self.data[record.name.value] = record`. -/
def AddressBook.add_record (b : AddressBook) (r : Record) : AddressBook :=
  ⟨dictSet b.data r.name r⟩

/-- `AddressBook.find` (book.py): `self.data.get(name)`. -/
def AddressBook.find (b : AddressBook) (name : String) : Option Record :=
  (b.data.find? (fun kv => kv.1 == name)).map Prod.snd

/-- `AddressBook.delete` (book.py): delete the entry when the name is
present, no-op otherwise. -/
def AddressBook.delete (b : AddressBook) (name : String) : AddressBook :=
  if b.data.any (fun kv => kv.1 == name) then ⟨dictDel b.data name⟩ else b

/-- The second half of the `get_incoming_birthdays` loop body (book.py),
once the next occurrence `bd` of the birthday is fixed: the inclusion
test via the chained comparison `today <= birthday <= today +
timedelta(days=7)` (Python evaluates `today + timedelta(days=7)` only when
`today <= birthday` holds, and that addition can raise `OverflowError` at
the calendar's end), the weekend shift by `7 - weekday` days (whose
addition can also raise), and `strftime("%d.%m.%Y")`. -/
def incomingTail (today : PyDate) (name : String) (bd : PyDate) :
    Except PyErr (Option (String × String)) :=
  if dateLe today bd then
    match dateAdd today 7 with
    | .error e => .error e
    | .ok lim =>
      if dateLe bd lim then
        if weekday bd ≥ 5 then
          match dateAdd bd (7 - weekday bd) with
          | .error e => .error e
          | .ok cong => .ok (some (name, strftime_dmY cong))
        else .ok (some (name, strftime_dmY bd))
      else .ok none
  else .ok none

/-- One iteration of the `get_incoming_birthdays` loop body (book.py) for
the entry `(name, r)`: skipped records give `none`, emitted records give
the `(name, formatted congratulation date)` pair appended to `upcoming`,
and a raising date operation aborts the whole loop with the exception.
The source lines, in order: skip when no birthday;
`replace(year=today.year)` (can raise); advance to `today.year + 1` when
the date already passed (can raise); then the inclusion window and
weekend shift, factored into `incomingTail`. -/
def incomingEntry (today : PyDate) (name : String) (r : Record) :
    Except PyErr (Option (String × String)) :=
  match r.birthday with
  | none => .ok none
  | some b =>
    match replaceYear b.date today.year with
    | .error e => .error e
    | .ok bd0 =>
      match (if dateLt bd0 today then replaceYear b.date (today.year + 1) else .ok bd0) with
      | .error e => .error e
      | .ok bd => incomingTail today name bd

/-- The `for name, record in self.data.items()` loop of
`get_incoming_birthdays`, collecting the `upcoming` list; the first raised
exception aborts the loop and propagates. -/
def collectUpcoming (today : PyDate) : List (String × Record) →
    Except PyErr (List (String × String))
  | [] => .ok []
  | (n, r) :: rest =>
    match incomingEntry today n r with
    | .error e => .error e
    | .ok none => collectUpcoming today rest
    | .ok (some pair) =>
      match collectUpcoming today rest with
      | .error e => .error e
      | .ok l => .ok (pair :: l)

/-- `AddressBook.get_incoming_birthdays` (book.py) with its `@input_error`
wrapper.  The source takes NO date argument: `today` is
`datetime.today().date()`, the ambient wall-clock date the function reads
by itself, made an explicit parameter of the embedding.  On success the
function returns the `upcoming` entries joined as lines
`<name> — congratulate day: <date>`; an exception inside the loop is
converted to its `input_error` text. -/
def AddressBook.get_incoming_birthdays (b : AddressBook) (today : PyDate) : String :=
  match collectUpcoming today b.data with
  | .ok l =>
    String.intercalate "\n" (l.map (fun item => item.1 ++ " — congratulate day: " ++ item.2))
  | .error e => input_error_msg e

/-- `handler_hello` (handler_functions.py). -/
def handler_hello (_args : List String) (book : AddressBook) : AddressBook × String :=
  (book, "How can I help you?")

/-- `handler_add` (handler_functions.py) with its `@input_error` wrapper.
`name, phone, *_ = args` raises `ValueError` when fewer than two tokens
are supplied, which the wrapper converts to "Provide name and phone
please.".  With enough tokens: an existing record is updated (message
"Contact update."), otherwise a fresh record is created and inserted
(message "Contact added."); `if phone:` skips the empty token, and a phone
failing validation is swallowed inside `Record.add_phone`, so the handler
reports success either way.  In Python the record inserted into the book
and the local variable are the same object; re-inserting the updated
record under its unchanged name is the explicit-state rendering of that
aliasing. -/
def handler_add (args : List String) (book : AddressBook) : AddressBook × String :=
  match args with
  | name :: phone :: _ =>
    match book.find name with
    | some record =>
      let record1 := if phone ≠ "" then record.add_phone phone else record
      (book.add_record record1, "Contact update.")
    | none =>
      let record := Record.init name
      let book1 := book.add_record record
      let record1 := if phone ≠ "" then record.add_phone phone else record
      (book1.add_record record1, "Contact added.")
  | _ => (book, input_error_msg (.valueError "not enough values to unpack"))

/-- `handler_change` (handler_functions.py) with its `@input_error`
wrapper.  `name, old_phone, new_phone, *_ = args` raises `ValueError` on
fewer than three tokens (wrapper text "Provide name and phone please.");
an absent name yields "Contact not found."; otherwise `edit_phone` runs
(whose own decorator swallows every failure) and the handler reports
"Contact updated." unconditionally. -/
def handler_change (args : List String) (book : AddressBook) : AddressBook × String :=
  match args with
  | name :: old_phone :: new_phone :: _ =>
    match book.find name with
    | none => (book, "Contact not found.")
    | some record =>
      (book.add_record (record.edit_phone old_phone new_phone), "Contact updated.")
  | _ => (book, input_error_msg (.valueError "not enough values to unpack"))

/-- `handler_phone` (handler_functions.py) with its `@input_error`
wrapper.  `args[0]` on an empty list raises `IndexError` (wrapper text
"Not enough arguments."); an absent name yields "Contact not found.";
otherwise the semicolon-joined phone list. -/
def handler_phone (args : List String) (book : AddressBook) : AddressBook × String :=
  match args with
  | [] => (book, input_error_msg (.indexError "list index out of range"))
  | name :: _ =>
    match book.find name with
    | none => (book, "Contact not found.")
    | some record =>
      (book, name ++ ": " ++ String.intercalate "; " (record.phones.map Phone.value))

/-- `handler_add_birthday` (handler_functions.py): fewer than two tokens
yields "Enter name and birthday."; an absent name yields "Contact not
found."; otherwise `add_birthday` runs (its decorator swallows an invalid
date) and the handler reports "Birthday added." unconditionally. -/
def handler_add_birthday (args : List String) (book : AddressBook) : AddressBook × String :=
  match args with
  | name :: birthday :: _ =>
    match book.find name with
    | none => (book, "Contact not found.")
    | some record =>
      (book.add_record (record.add_birthday birthday), "Birthday added.")
  | _ => (book, "Enter name and birthday.")

/-- `handler_show_birthday` (handler_functions.py): no tokens yields
"Enter a name pleace." (sic); an absent name yields "Contact not found.";
a record without a birthday yields "<name> has no birthday saved.";
otherwise the stored birthday text. -/
def handler_show_birthday (args : List String) (book : AddressBook) : AddressBook × String :=
  match args with
  | [] => (book, "Enter a name pleace.")
  | name :: _ =>
    match book.find name with
    | none => (book, "Contact not found.")
    | some record =>
      match record.birthday with
      | none => (book, name ++ " has no birthday saved.")
      | some b => (book, name ++ "'s birthday: " ++ b.value)

/-- `handler_birthdays` (handler_functions.py) with its `@input_error`
wrapper.  `get_incoming_birthdays` returns a STRING; when it is empty
(falsy) the fixed no-birthdays message is returned.  Otherwise
`for person in birthdays:` iterates the characters of that string, and
`person['name']` subscripts a one-character string with a string key,
which raises `TypeError` ("string indices must be integers"; newer
CPython appends ", not 'str'") on the very first iteration — caught by
the wrapper's `except Exception` clause and returned as "Error: ..."
text. -/
def handler_birthdays (_args : List String) (book : AddressBook) (today : PyDate) :
    AddressBook × String :=
  let birthdays := book.get_incoming_birthdays today
  if birthdays = "" then (book, "There are no birthdays in the next 7 days.")
  else (book, input_error_msg (.typeError "string indices must be integers"))

/-- `handler_all` (handler_functions.py): "No contacts saved." on an empty
book, else one line `<name>: <str(record)>` per entry. -/
def handler_all (_args : List String) (book : AddressBook) : AddressBook × String :=
  if book.data.isEmpty then (book, "No contacts saved.")
  else (book, String.intercalate "\n" (book.data.map (fun kv => kv.1 ++ ": " ++ kv.2.str)))

/-- `handler_goodbye` (handler_functions.py). -/
def handler_goodbye (_args : List String) (book : AddressBook) : AddressBook × String :=
  (book, "Good bye!")

/-- the keys of the `COMMANDS` dictionary (handler_functions.py). -/
inductive Cmd where
  | hello
  | add
  | change
  | phone
  | add_birthday
  | show_birthday
  | birthdays
  | all
  | close
  | exit
  deriving DecidableEq, Repr

/-- `COMMANDS[c](args, book)`: the dispatch performed by the main loop for
a recognized command word.  `today` is the wall-clock date consumed by the
one handler that reads the clock. -/
def runCommand (c : Cmd) (args : List String) (book : AddressBook) (today : PyDate) :
    AddressBook × String :=
  match c with
  | .hello => handler_hello args book
  | .add => handler_add args book
  | .change => handler_change args book
  | .phone => handler_phone args book
  | .add_birthday => handler_add_birthday args book
  | .show_birthday => handler_show_birthday args book
  | .birthdays => handler_birthdays args book today
  | .all => handler_all args book
  | .close => handler_goodbye args book
  | .exit => handler_goodbye args book

/-! Specification-side definitions.  The definitions below follow the
words of the specification (not the source); they exist to be compared
with the embedded code. -/

/-- The specification's `next_occurrence`: the birthday's month/day placed
in today's year, advanced one year when that day has already passed. -/
def nextOccurrence (today bdate : PyDate) : PyDate :=
  if dateLt ⟨today.year, bdate.month, bdate.day⟩ today then ⟨today.year + 1, bdate.month, bdate.day⟩
  else ⟨today.year, bdate.month, bdate.day⟩

/-- The specification's congratulation date: an occurrence falling on
Saturday (weekday 5) or Sunday (weekday 6) shifts forward by
`7 - weekday` days to the following Monday; other days are unchanged. -/
def congDate (d : PyDate) : PyDate :=
  if weekday d = 5 ∨ weekday d = 6 then addDays d (7 - weekday d) else d

/-- The specification's inclusion window:
`today <= next_occurrence <= today + 7 days`. -/
def inWindow (today d : PyDate) : Bool :=
  dateLe today d && dateLe d (addDays today 7)

/-- The emitted entry for one record according to the specification's
algorithm: present exactly when the record has a birthday whose next
occurrence lies in the window, carrying the formatted congratulation
date. -/
def specEntry (today : PyDate) (name : String) (r : Record) : Option (String × String) :=
  match r.birthday with
  | none => none
  | some b =>
    if inWindow today (nextOccurrence today b.date) then
      some (name, strftime_dmY (congDate (nextOccurrence today b.date)))
    else none

/-- splitting a character list at every dot, as the specification's
"day.month.year with that exact separator" reading of the format. -/
def splitDots : List Char → List (List Char)
  | [] => [[]]
  | c :: rest =>
    match splitDots rest with
    | [] => [[c]]
    | h :: t => if c = '.' then [] :: h :: t else (c :: h) :: t

/-- numeric value of a digit group. -/
def fieldVal (cs : List Char) : Nat :=
  cs.foldl (fun a c => 10 * a + digitVal c) 0

/-- The amended specification's description of birthday text the program
accepts: exactly three dot-separated all-digit groups; the day group of
one digit (1-9, unpadded) or two digits with value 01..31; the month group
of one digit or two digits with value 01..12; the year group of exactly
four digits; and the three numbers forming a valid calendar date in
`datetime`'s range (so impossible dates such as 31.04 or a Feb 29 in a
non-leap year are rejected). -/
def birthdayTextOk (s : String) : Bool :=
  match splitDots s.data with
  | [ds, ms, ys] =>
    decide (ds ≠ [] ∧ ds.all isDigitChar = true ∧ ds.length ≤ 2
      ∧ 1 ≤ fieldVal ds ∧ fieldVal ds ≤ 31
      ∧ ms ≠ [] ∧ ms.all isDigitChar = true ∧ ms.length ≤ 2
      ∧ 1 ≤ fieldVal ms ∧ fieldVal ms ≤ 12
      ∧ ys.length = 4 ∧ ys.all isDigitChar = true
      ∧ isValidDate (fieldVal ys) (fieldVal ms) (fieldVal ds) = true)
  | _ => false

/-- the phone-format invariant of the data model: stored text of length 10
whose characters all pass the program's digit test. -/
def phoneOk (p : Phone) : Bool :=
  p.value.length = 10 && pyStrIsDigit p.value

/-- the invariant on one record: every stored phone satisfies `phoneOk`. -/
def recordOk (r : Record) : Bool :=
  r.phones.all phoneOk

/-- the invariant on the whole directory. -/
def bookOk (b : AddressBook) : Bool :=
  b.data.all (fun kv => recordOk kv.2)

/-- an empty directory, as created at startup. -/
def emptyBook : AddressBook := ⟨[]⟩

/-- a directory reached by two commands from the empty one: `add Alice
1234567890` followed by `add_birthday Alice 15.06.2024`. -/
def bookAlice : AddressBook :=
  (handler_add_birthday ["Alice", "15.06.2024"]
    (handler_add ["Alice", "1234567890"] emptyBook).1).1

/-! Helper lemmas shared by the claim theorems. -/

theorem phone_mk_ok_iff (v : String) (p : Phone) :
    Phone.mk? v = .ok p ↔ (v.length = 10 ∧ pyStrIsDigit v = true ∧ p = ⟨v⟩) := by
  unfold Phone.mk?
  split
  · next h => simp [h]
  · split
    · next h2 =>
      simp only [Bool.not_eq_true'] at h2
      simp [h2]
    · next h1 h2 =>
      simp only [ne_eq, not_not] at h1
      simp only [Bool.not_eq_true', Bool.not_eq_false] at h2
      simp [h1, h2, eq_comm]

theorem phone_mk_error (v : String) (h : ¬(v.length = 10 ∧ pyStrIsDigit v = true)) :
    ∃ e, Phone.mk? v = .error e := by
  unfold Phone.mk?
  split
  · exact ⟨_, rfl⟩
  · split
    · exact ⟨_, rfl⟩
    · next h1 h2 =>
      simp only [ne_eq, not_not] at h1
      simp only [Bool.not_eq_true', Bool.not_eq_false] at h2
      exact absurd ⟨h1, h2⟩ h

theorem mem_eraseFirstPhone (l : List Phone) (v : String) (q : Phone)
    (h : q ∈ eraseFirstPhone l v) : q ∈ l := by
  induction l with
  | nil => simp [eraseFirstPhone] at h
  | cons p rest ih =>
    unfold eraseFirstPhone at h
    split at h
    · exact List.mem_cons_of_mem _ h
    · rcases List.mem_cons.mp h with h1 | h1
      · exact h1 ▸ List.mem_cons_self _ _
      · exact List.mem_cons_of_mem _ (ih h1)

theorem eraseFirstPhone_split (l1 l2 : List Phone) (p : Phone) (v : String)
    (hp : p.value = v) (hfirst : ∀ q ∈ l1, q.value ≠ v) :
    eraseFirstPhone (l1 ++ p :: l2) v = l1 ++ l2 := by
  induction l1 with
  | nil => simp [eraseFirstPhone, hp]
  | cons q l1 ih =>
    have hq : q.value ≠ v := hfirst q (List.mem_cons_self _ _)
    simp only [List.cons_append, eraseFirstPhone, if_neg hq]
    rw [List.append_eq, ih (fun x hx => hfirst x (List.mem_cons_of_mem _ hx))]

theorem find_phone_isSome_of_mem (r : Record) (old : String) (p : Phone)
    (hmem : p ∈ r.phones) (hp : p.value = old) : (r.find_phone old).isSome := by
  unfold Record.find_phone
  rw [List.find?_isSome]
  exact ⟨p, hmem, by simp [hp]⟩

theorem remove_phone_split (r : Record) (old : String) (l1 l2 : List Phone) (p : Phone)
    (hsplit : r.phones = l1 ++ p :: l2) (hp : p.value = old)
    (hfirst : ∀ q ∈ l1, q.value ≠ old) :
    r.remove_phone old = { r with phones := l1 ++ l2 } := by
  unfold Record.remove_phone
  have hs : (r.find_phone old).isSome :=
    find_phone_isSome_of_mem r old p
      (by rw [hsplit]; exact List.mem_append_right _ (List.mem_cons_self _ _)) hp
  cases hfp : r.find_phone old with
  | none => rw [hfp] at hs; cases hs
  | some q =>
    simp only [hfp]
    rw [hsplit, eraseFirstPhone_split l1 l2 p old hp hfirst]

theorem any_value_of_mem (l : List Phone) (p : Phone) (v : String)
    (hmem : p ∈ l) (hp : p.value = v) :
    l.any (fun q => q.value == v) = true :=
  List.any_eq_true.mpr ⟨p, hmem, by simp [hp]⟩

theorem find_dictSet_self (d : List (String × Record)) (k : String) (v : Record) :
    AddressBook.find ⟨dictSet d k v⟩ k = some v := by
  induction d with
  | nil => simp [dictSet, AddressBook.find]
  | cons kv rest ih =>
    obtain ⟨k0, v0⟩ := kv
    by_cases h : k0 = k
    · simp [dictSet, h, AddressBook.find]
    · simp only [dictSet, if_neg h]
      simp only [AddressBook.find] at ih ⊢
      rw [List.find?_cons_of_neg]
      · exact ih
      · simp [h]

/-! Claim theorems. -/

/-- Claim C1, counterexample: a record stores exactly the phone
"1234567890"; `edit_phone("1234567890", "12345")` is called with a
malformed new number (length 5, not 10).  The claim says the phone list is
left exactly as it was; in fact the code removes the old phone BEFORE
validating the new one, so the resulting list is empty and the old phone
is gone. -/
theorem C1_counterexample :
    (Record.edit_phone ⟨"A", [⟨"1234567890"⟩], none⟩ "1234567890" "12345").phones
        ≠ [(⟨"1234567890"⟩ : Phone)]
      ∧ (Record.edit_phone ⟨"A", [⟨"1234567890"⟩], none⟩ "1234567890" "12345").phones = []
      ∧ "12345".length ≠ 10 := by
  refine ⟨by decide, by decide, by decide⟩

/-- Claim C1, amended: when some stored phone equals `old_text` and
`new_text` fails phone validation (length not 10, or a character failing
Python's digit test), `edit_phone` does NOT leave the list unchanged: it
removes the first occurrence of `old_text` and appends nothing, because
the code removes before validating.  Stated for an arbitrary record whose
phone list splits as `l1 ++ p :: l2` with `p` the first occurrence. -/
theorem C1_amended (r : Record) (old new : String) (l1 l2 : List Phone) (p : Phone)
    (hsplit : r.phones = l1 ++ p :: l2) (hp : p.value = old)
    (hfirst : ∀ q ∈ l1, q.value ≠ old)
    (hbad : ¬(new.length = 10 ∧ pyStrIsDigit new = true)) :
    (r.edit_phone old new).phones = l1 ++ l2 := by
  unfold Record.edit_phone
  have ha : r.phones.any (fun q => q.value == old) = true :=
    any_value_of_mem r.phones p old
      (by rw [hsplit]; exact List.mem_append_right _ (List.mem_cons_self _ _)) hp
  rw [if_pos ha]
  obtain ⟨e, he⟩ := phone_mk_error new hbad
  simp only [he]
  rw [remove_phone_split r old l1 l2 p hsplit hp hfirst]

/-- witness for `C1_amended` at a concrete input. -/
theorem C1_amended_witness :
    (Record.edit_phone ⟨"A", [⟨"1234567890"⟩], none⟩ "1234567890" "12345").phones = [] :=
  C1_amended ⟨"A", [⟨"1234567890"⟩], none⟩ "1234567890" "12345" [] [] ⟨"1234567890"⟩
    rfl rfl (by intro q hq; cases hq) (by decide)

/-- Claim C8 (confirmed): on a record whose phone list contains
`old_text` (first occurrence `p`, possibly with later duplicates inside
`l2`), editing with a valid 10-digit `new_text` removes exactly that first
occurrence and appends the freshly validated phone at the end of the
list. -/
theorem C8_edit_phone_first_occurrence (r : Record) (old new : String)
    (l1 l2 : List Phone) (p : Phone)
    (hsplit : r.phones = l1 ++ p :: l2) (hp : p.value = old)
    (hfirst : ∀ q ∈ l1, q.value ≠ old)
    (hlen : new.length = 10) (hdig : pyStrIsDigit new = true) :
    (r.edit_phone old new).phones = l1 ++ l2 ++ [(⟨new⟩ : Phone)] := by
  unfold Record.edit_phone
  have ha : r.phones.any (fun q => q.value == old) = true :=
    any_value_of_mem r.phones p old
      (by rw [hsplit]; exact List.mem_append_right _ (List.mem_cons_self _ _)) hp
  rw [if_pos ha]
  have hok : Phone.mk? new = .ok ⟨new⟩ := (phone_mk_ok_iff new ⟨new⟩).mpr ⟨hlen, hdig, rfl⟩
  simp only [hok]
  rw [remove_phone_split r old l1 l2 p hsplit hp hfirst]

/-- witness for `C8_edit_phone_first_occurrence`: the first of two
duplicate occurrences is removed, the later duplicate survives, and the
new phone is appended at the end. -/
theorem C8_witness :
    (Record.edit_phone
        ⟨"Jane", [⟨"1111111111"⟩, ⟨"2222222222"⟩, ⟨"1111111111"⟩], none⟩
        "1111111111" "3333333333").phones
      = [⟨"2222222222"⟩, ⟨"1111111111"⟩, ⟨"3333333333"⟩] :=
  C8_edit_phone_first_occurrence
    ⟨"Jane", [⟨"1111111111"⟩, ⟨"2222222222"⟩, ⟨"1111111111"⟩], none⟩
    "1111111111" "3333333333"
    [] [⟨"2222222222"⟩, ⟨"1111111111"⟩] ⟨"1111111111"⟩
    rfl rfl (by intro q hq; cases hq) (by decide) (by decide)

/-- Claim C5, counterexample: the superscript-two character U+00B2 is not
a decimal digit, yet Python's `str.isdigit` accepts it, so
`Phone("123456789²")` (ten characters, one of them non-decimal) validates
successfully — refuting the claim that validation fails for every text
containing a character that is not a decimal digit. -/
theorem C5_counterexample :
    Phone.mk? "123456789²" = .ok ⟨"123456789²"⟩
      ∧ "123456789²".length = 10
      ∧ isDigitChar '²' = false ∧ '²' ∈ "123456789²".data := by
  refine ⟨rfl, by decide, by decide, by decide⟩

/-- Claim C5, amended: phone validation fails exactly when the length is
not 10 or some character fails Python's `str.isdigit` test (a superset of
the decimal digits); when the text is 10 characters all passing that test,
validation succeeds and rendering the stored Phone reproduces the text
exactly (round-trip).  In particular every 10-character decimal-digit
text round-trips. -/
theorem C5_amended (t : String) :
    ((t.length ≠ 10 ∨ pyStrIsDigit t = false) → ∃ e, Phone.mk? t = .error e)
      ∧ (t.length = 10 → pyStrIsDigit t = true →
          ∃ p, Phone.mk? t = .ok p ∧ p.str = t) := by
  constructor
  · intro h
    apply phone_mk_error
    rintro ⟨h1, h2⟩
    rcases h with h | h
    · exact h h1
    · rw [h2] at h; cases h
  · intro h1 h2
    exact ⟨⟨t⟩, (phone_mk_ok_iff t ⟨t⟩).mpr ⟨h1, h2, rfl⟩, rfl⟩

/-- witness for `C5_amended` at concrete inputs: "12345" is rejected,
"0123456789" is accepted and renders back to itself. -/
theorem C5_amended_witness :
    (∃ e, Phone.mk? "12345" = .error e)
      ∧ ∃ p, Phone.mk? "0123456789" = .ok p ∧ p.str = "0123456789" :=
  ⟨(C5_amended "12345").1 (Or.inl (by decide)),
   (C5_amended "0123456789").2 (by decide) (by decide)⟩

/-- Claim C10, counterexample: "123456789²" has length 10 and contains a
character that is not a decimal digit, so it is malformed in the claim's
sense; yet `add` on a fresh name does NOT leave the phone list empty — the
code's `isdigit` check accepts the superscript digit and the phone is
stored.  (The "Contact added." part of the claim does hold here.) -/
theorem C10_counterexample :
    (handler_add ["Ghost", "123456789²"] emptyBook).2 = "Contact added."
      ∧ (handler_add ["Ghost", "123456789²"] emptyBook).1.find "Ghost"
          = some ⟨"Ghost", [⟨"123456789²"⟩], none⟩
      ∧ isDigitChar '²' = false := by
  refine ⟨by decide, by decide, by decide⟩

/-- Claim C10, amended: for a name absent from the directory and a phone
text failing the code's validation (length not 10, or a character failing
Python's `str.isdigit`), the `add` handler returns "Contact added." and
leaves the directory containing a record under that name with an EMPTY
phone list: the `ValueError` is swallowed inside `add_phone`'s decorator,
no error text reaches the user, and the freshly created record persists. -/
theorem C10_amended (book : AddressBook) (name phone : String) (rest : List String)
    (hfind : book.find name = none)
    (hbad : ¬(phone.length = 10 ∧ pyStrIsDigit phone = true)) :
    (handler_add (name :: phone :: rest) book).2 = "Contact added."
      ∧ (handler_add (name :: phone :: rest) book).1.find name
          = some (Record.init name) := by
  unfold handler_add
  simp only [hfind]
  have hrec : (if phone ≠ "" then (Record.init name).add_phone phone
      else Record.init name) = Record.init name := by
    split
    · unfold Record.add_phone
      obtain ⟨e, he⟩ := phone_mk_error phone hbad
      simp [he]
    · rfl
  rw [hrec]
  refine ⟨by trivial, ?_⟩
  exact find_dictSet_self _ name (Record.init name)

/-- witness for `C10_amended`: adding "Ghost" with the short phone
"12345" to the empty directory. -/
theorem C10_amended_witness :
    (handler_add ["Ghost", "12345"] emptyBook).2 = "Contact added."
      ∧ (handler_add ["Ghost", "12345"] emptyBook).1.find "Ghost"
          = some (Record.init "Ghost") :=
  C10_amended emptyBook "Ghost" "12345" [] (by decide) (by decide)

theorem handler_birthdays_fst (args : List String) (book : AddressBook) (today : PyDate) :
    (handler_birthdays args book today).1 = book := by
  by_cases h : book.get_incoming_birthdays today = "" <;>
    simp [handler_birthdays, h]

/-- Claim C2 (code bug), evaluated at the failing input: the directory
reached from empty by `add Alice 1234567890` and
`add_birthday Alice 15.06.2024`, with the clock at 10.06.2024 (a Monday).
`get_incoming_birthdays` emits the nonempty string
"Alice — congratulate day: 17.06.2024" (the Saturday birthday shifted to
Monday), so an upcoming birthday exists — yet the `birthdays` handler
returns the TypeError text instead of a `Congratulate <name> — <date>`
line, because it iterates the characters of that string and subscripts a
one-character string with the key used for a dictionary. -/
theorem C2_failing_input_eval :
    bookAlice.get_incoming_birthdays ⟨2024, 6, 10⟩
        = "Alice — congratulate day: 17.06.2024"
      ∧ (handler_birthdays [] bookAlice ⟨2024, 6, 10⟩).2
          = "Error: string indices must be integers"
      ∧ (handler_birthdays [] emptyBook ⟨2024, 6, 10⟩).2
          = "There are no birthdays in the next 7 days." := by
  refine ⟨by decide, by decide, by decide⟩

/-- Claim C3, counterexample: `get_incoming_birthdays` takes NO caller
date argument in the source — the only date it consumes is the wall-clock
`datetime.today().date()`, the explicit `today` parameter of the
embedding.  With the directory fixed, moving the clock from 10.06.2024 to
01.01.2024 changes the output, so the result is NOT a function of the
directory state and a caller-supplied date: it is wall-clock coupled. -/
theorem C3_counterexample :
    bookAlice.get_incoming_birthdays ⟨2024, 6, 10⟩
      ≠ bookAlice.get_incoming_birthdays ⟨2024, 1, 1⟩ := by
  decide

/-- Claim C3, amended: `upcoming_birthdays` reads "today" from the system
clock rather than a caller-supplied parameter; given the same directory
state and the same clock date, repeated calls yield identical output (the
source computes only local values — in the embedding this purity makes the
first conjunct definitional), and the call leaves the directory unchanged
(no side effects: the `birthdays` handler returns the book as it was). -/
theorem C3_amended (book : AddressBook) (today : PyDate) :
    book.get_incoming_birthdays today = book.get_incoming_birthdays today
      ∧ ∀ args, (handler_birthdays args book today).1 = book :=
  ⟨rfl, fun args => handler_birthdays_fst args book today⟩

/-- Claim C4, counterexample: calling the `add` handler with NO tokens is
a too-few-tokens case, but the returned text is "Provide name and phone
please." (the decorator's ValueError branch, triggered by the failed tuple
unpacking), not the claimed "Not enough arguments." (which is the
IndexError branch, reached only by `handler_phone`). -/
theorem C4_counterexample :
    (runCommand Cmd.add [] emptyBook ⟨2024, 6, 10⟩).2 = "Provide name and phone please."
      ∧ "Provide name and phone please." ≠ "Not enough arguments." := by
  refine ⟨by decide, by decide⟩

/-- Claim C4, amended: every handler (totalized by the `input_error`
decorator, which converts each raised exception to text — the embedded
handlers are total string-valued functions, which is exactly the
"never propagates an exception to the dispatch loop" part) responds to a
token shortage with its own fixed text: "Provide name and phone please."
for `add` (fewer than 2 tokens) and `change` (fewer than 3),
"Not enough arguments." for `phone` with no tokens, "Enter name and
birthday." for `add_birthday` with fewer than 2, "Enter a name pleace."
for `show_birthday` with none; and each handler that looks up a referenced
name answers "Contact not found." when the name is absent. -/
theorem C4_amended (book : AddressBook) :
    ((handler_add [] book).2 = "Provide name and phone please."
      ∧ ∀ x, (handler_add [x] book).2 = "Provide name and phone please.")
    ∧ ((handler_change [] book).2 = "Provide name and phone please."
      ∧ (∀ x, (handler_change [x] book).2 = "Provide name and phone please.")
      ∧ ∀ x y, (handler_change [x, y] book).2 = "Provide name and phone please.")
    ∧ (handler_phone [] book).2 = "Not enough arguments."
    ∧ ((handler_add_birthday [] book).2 = "Enter name and birthday."
      ∧ ∀ x, (handler_add_birthday [x] book).2 = "Enter name and birthday.")
    ∧ (handler_show_birthday [] book).2 = "Enter a name pleace."
    ∧ (∀ name old new rest, book.find name = none →
        (handler_change (name :: old :: new :: rest) book).2 = "Contact not found.")
    ∧ (∀ name rest, book.find name = none →
        (handler_phone (name :: rest) book).2 = "Contact not found.")
    ∧ (∀ name bd rest, book.find name = none →
        (handler_add_birthday (name :: bd :: rest) book).2 = "Contact not found.")
    ∧ (∀ name rest, book.find name = none →
        (handler_show_birthday (name :: rest) book).2 = "Contact not found.") := by
  refine ⟨⟨rfl, fun x => rfl⟩, ⟨rfl, fun x => rfl, fun x y => rfl⟩, rfl,
    ⟨rfl, fun x => rfl⟩, rfl, ?_, ?_, ?_, ?_⟩
  · intro name old new rest h
    unfold handler_change
    simp [h]
  · intro name rest h
    unfold handler_phone
    simp [h]
  · intro name bd rest h
    unfold handler_add_birthday
    simp [h]
  · intro name rest h
    unfold handler_show_birthday
    simp [h]

/-- witness for `C4_amended` at concrete inputs: the empty directory, a
token shortage for `add` and `phone`, and a lookup of the absent name
"Ghost". -/
theorem C4_amended_witness :
    (handler_add [] emptyBook).2 = "Provide name and phone please."
      ∧ (handler_phone [] emptyBook).2 = "Not enough arguments."
      ∧ (handler_phone ["Ghost"] emptyBook).2 = "Contact not found." := by
  obtain ⟨h1, h2, h3, h4, h5, h6, h7, h8, h9⟩ := C4_amended emptyBook
  exact ⟨h1.1, h3, h7 "Ghost" [] (by decide)⟩

theorem phoneOk_of_mk (v : String) (p : Phone) (h : Phone.mk? v = .ok p) :
    phoneOk p = true := by
  obtain ⟨h1, h2, rfl⟩ := (phone_mk_ok_iff v p).mp h
  simp [phoneOk, h1, h2]

theorem recordOk_add_phone (r : Record) (v : String) (h : recordOk r = true) :
    recordOk (r.add_phone v) = true := by
  unfold Record.add_phone
  cases hm : Phone.mk? v with
  | ok p =>
    unfold recordOk at h ⊢
    simp [List.all_append, h, phoneOk_of_mk v p hm]
  | error e => exact h

theorem recordOk_remove_phone (r : Record) (v : String) (h : recordOk r = true) :
    recordOk (r.remove_phone v) = true := by
  unfold Record.remove_phone
  cases hf : r.find_phone v with
  | none => exact h
  | some q =>
    unfold recordOk at h ⊢
    rw [List.all_eq_true] at h ⊢
    intro p hp
    exact h p (mem_eraseFirstPhone _ _ _ hp)

theorem recordOk_edit_phone (r : Record) (old new : String) (h : recordOk r = true) :
    recordOk (r.edit_phone old new) = true := by
  unfold Record.edit_phone
  split
  · cases hm : Phone.mk? new with
    | ok p =>
      have hr := recordOk_remove_phone r old h
      unfold recordOk at hr ⊢
      simp [List.all_append, hr, phoneOk_of_mk new p hm]
    | error e => exact recordOk_remove_phone r old h
  · exact h

theorem recordOk_add_birthday (r : Record) (s : String) (h : recordOk r = true) :
    recordOk (r.add_birthday s) = true := by
  unfold Record.add_birthday
  cases hm : Birthday.mk? s with
  | ok b => exact h
  | error e => exact h

theorem all_dictSet (d : List (String × Record)) (k : String) (v : Record)
    (hd : d.all (fun kv => recordOk kv.2) = true) (hv : recordOk v = true) :
    (dictSet d k v).all (fun kv => recordOk kv.2) = true := by
  induction d with
  | nil => simp [dictSet, hv]
  | cons kv rest ih =>
    obtain ⟨k0, v0⟩ := kv
    rw [List.all_cons, Bool.and_eq_true] at hd
    unfold dictSet
    split
    · simp [List.all_cons, hv, hd.2]
    · simp [List.all_cons, hd.1, ih hd.2]

theorem bookOk_add_record (b : AddressBook) (r : Record)
    (hb : bookOk b = true) (hr : recordOk r = true) :
    bookOk (b.add_record r) = true :=
  all_dictSet b.data r.name r hb hr

theorem recordOk_of_find (b : AddressBook) (name : String) (r : Record)
    (hb : bookOk b = true) (h : b.find name = some r) : recordOk r = true := by
  unfold AddressBook.find at h
  cases hf : b.data.find? (fun kv => kv.1 == name) with
  | none => rw [hf] at h; cases h
  | some kv =>
    rw [hf] at h
    simp only [Option.map_some'] at h
    have hmem := List.mem_of_find?_eq_some hf
    unfold bookOk at hb
    rw [List.all_eq_true] at hb
    have hkv := hb kv hmem
    rw [Option.some_inj] at h
    exact h ▸ hkv

/-- `Record.__init__` yields a record with no phones, which trivially
satisfies the invariant. -/
theorem recordOk_init (name : String) : recordOk (Record.init name) = true := rfl

/-- Claim C9, counterexample: a single `add` command from the empty
directory stores the phone text "123456789²", whose superscript character
is not a decimal digit (Python's `isdigit` accepts it) — so an operation
CAN place a value violating the all-decimal-digits format into a phone
list. -/
theorem C9_counterexample :
    (handler_add ["Jane", "123456789²"] emptyBook).1.find "Jane"
        = some ⟨"Jane", [⟨"123456789²"⟩], none⟩
      ∧ isDigitChar '²' = false
      ∧ "123456789²".length = 10 := by
  refine ⟨by decide, by decide, by decide⟩

/-- Claim C9, amended: the invariant actually maintained by every command
(and hence by `add_phone`, `edit_phone`, `remove_phone` underneath the
handlers) is: every stored phone is text of exactly 10 characters all
passing Python's `str.isdigit` test — a strict superset of the decimal
digits.  Every phone enters a list only through a successful
`Phone.__init__`, which enforces exactly this. -/
theorem C9_amended (c : Cmd) (args : List String) (book : AddressBook) (today : PyDate)
    (h : bookOk book = true) : bookOk (runCommand c args book today).1 = true := by
  cases c with
  | hello => exact h
  | add =>
    match args with
    | [] => exact h
    | [x] => exact h
    | name :: phone :: rest =>
      cases hf : book.find name with
      | some record =>
        have hrec : recordOk record = true := recordOk_of_find book name record h hf
        have hrec1 : recordOk (if phone ≠ "" then record.add_phone phone else record) = true := by
          split
          · exact recordOk_add_phone record phone hrec
          · exact hrec
        simp only [runCommand, handler_add, hf]
        exact bookOk_add_record book _ h hrec1
      | none =>
        have hrec1 : recordOk (if phone ≠ "" then (Record.init name).add_phone phone
            else Record.init name) = true := by
          split
          · exact recordOk_add_phone (Record.init name) phone (recordOk_init name)
          · exact recordOk_init name
        simp only [runCommand, handler_add, hf]
        exact bookOk_add_record _ _
          (bookOk_add_record book (Record.init name) h (recordOk_init name)) hrec1
  | change =>
    match args with
    | [] => exact h
    | [x] => exact h
    | [x, y] => exact h
    | name :: old :: new :: rest =>
      cases hf : book.find name with
      | none =>
        simp only [runCommand, handler_change, hf]
        exact h
      | some record =>
        simp only [runCommand, handler_change, hf]
        exact bookOk_add_record book _ h
          (recordOk_edit_phone record old new (recordOk_of_find book name record h hf))
  | phone =>
    match args with
    | [] => exact h
    | name :: rest =>
      cases hf : book.find name with
      | none =>
        simp only [runCommand, handler_phone, hf]
        exact h
      | some record =>
        simp only [runCommand, handler_phone, hf]
        exact h
  | add_birthday =>
    match args with
    | [] => exact h
    | [x] => exact h
    | name :: bd :: rest =>
      cases hf : book.find name with
      | none =>
        simp only [runCommand, handler_add_birthday, hf]
        exact h
      | some record =>
        simp only [runCommand, handler_add_birthday, hf]
        exact bookOk_add_record book _ h
          (recordOk_add_birthday record bd (recordOk_of_find book name record h hf))
  | show_birthday =>
    match args with
    | [] => exact h
    | name :: rest =>
      cases hf : book.find name with
      | none =>
        simp only [runCommand, handler_show_birthday, hf]
        exact h
      | some record =>
        cases hb : record.birthday with
        | none =>
          simp only [runCommand, handler_show_birthday, hf, hb]
          exact h
        | some b =>
          simp only [runCommand, handler_show_birthday, hf, hb]
          exact h
  | birthdays =>
    show bookOk (handler_birthdays args book today).1 = true
    rw [handler_birthdays_fst]
    exact h
  | all =>
    show bookOk (handler_all args book).1 = true
    unfold handler_all
    split
    · exact h
    · exact h
  | close => exact h
  | exit => exact h

/-- witness for `C9_amended`: the `add Jane 4365464563` command applied to
the (invariant-satisfying) empty directory preserves the invariant. -/
theorem C9_amended_witness :
    bookOk emptyBook = true
      ∧ bookOk (runCommand Cmd.add ["Jane", "4365464563"] emptyBook ⟨2024, 6, 10⟩).1 = true :=
  ⟨by decide,
   C9_amended Cmd.add ["Jane", "4365464563"] emptyBook ⟨2024, 6, 10⟩ (by decide)⟩

theorem replaceYear_ok (d : PyDate) (y : Nat) (r : PyDate) (h : replaceYear d y = .ok r) :
    r = ⟨y, d.month, d.day⟩ := by
  unfold replaceYear at h
  split at h
  · injection h with h
    exact h.symm
  · cases h

theorem dateAdd_ok (d : PyDate) (n : Nat) (r : PyDate) (h : dateAdd d n = .ok r) :
    r = addDays d n := by
  simp only [dateAdd] at h
  split at h
  · injection h with h
    exact h.symm
  · cases h

theorem weekday_lt (d : PyDate) : weekday d < 7 :=
  Nat.mod_lt _ (by norm_num)


theorem incomingTail_ok (today : PyDate) (name : String) (bd : PyDate)
    (o : Option (String × String)) (h : incomingTail today name bd = .ok o) :
    o = (if inWindow today bd = true then some (name, strftime_dmY (congDate bd)) else none) := by
  unfold incomingTail at h
  by_cases hle : dateLe today bd = true
  · rw [if_pos hle] at h
    split at h
    · exact Except.noConfusion h
    · next lim heq =>
      have hlim : addDays today 7 = lim := (dateAdd_ok _ _ _ heq).symm
      by_cases hbl : dateLe bd lim = true
      · have hwin : inWindow today bd = true := by
          unfold inWindow
          rw [hlim, hle, hbl]
          decide
        rw [if_pos hbl] at h
        rw [hwin, if_pos rfl]
        by_cases hw : weekday bd ≥ 5
        · rw [if_pos hw] at h
          split at h
          · exact Except.noConfusion h
          · next cong heq2 =>
            have hcong : addDays bd (7 - weekday bd) = cong := (dateAdd_ok _ _ _ heq2).symm
            have hwd : weekday bd = 5 ∨ weekday bd = 6 := by
              have := weekday_lt bd
              omega
            rw [congDate, if_pos hwd, hcong]
            exact (Except.ok.inj h).symm
        · rw [if_neg hw] at h
          have hwd : ¬(weekday bd = 5 ∨ weekday bd = 6) := by omega
          rw [congDate, if_neg hwd]
          exact (Except.ok.inj h).symm
      · have hwin : inWindow today bd = false := by
          unfold inWindow
          rw [hlim]
          rw [Bool.not_eq_true] at hbl
          rw [hbl, Bool.and_false]
        rw [if_neg hbl] at h
        rw [hwin]
        simp only [Bool.false_eq_true, if_false]
        exact (Except.ok.inj h).symm
  · have hwin : inWindow today bd = false := by
      unfold inWindow
      rw [Bool.not_eq_true] at hle
      rw [hle, Bool.false_and]
    rw [if_neg hle] at h
    rw [hwin]
    simp only [Bool.false_eq_true, if_false]
    exact (Except.ok.inj h).symm

theorem incomingEntry_ok (today : PyDate) (name : String) (r : Record)
    (o : Option (String × String)) (h : incomingEntry today name r = .ok o) :
    o = specEntry today name r := by
  unfold incomingEntry at h
  split at h
  · next hbnone =>
    unfold specEntry
    rw [hbnone]
    exact (Except.ok.inj h).symm
  · next b hbsome =>
    split at h
    · exact Except.noConfusion h
    · next bd0 heq0 =>
      have hbd0 : bd0 = ⟨today.year, b.date.month, b.date.day⟩ := replaceYear_ok _ _ _ heq0
      split at h
      · exact Except.noConfusion h
      · next bd heq1 =>
        rw [hbd0] at heq1
        have hno : nextOccurrence today b.date = bd := by
          unfold nextOccurrence
          by_cases hlt : dateLt ⟨today.year, b.date.month, b.date.day⟩ today = true
          · rw [if_pos hlt] at heq1 ⊢
            exact (replaceYear_ok _ _ _ heq1).symm
          · rw [if_neg hlt] at heq1 ⊢
            exact Except.ok.inj heq1
        unfold specEntry
        rw [hbsome]
        show o = (if inWindow today (nextOccurrence today b.date) = true then
            some (name, strftime_dmY (congDate (nextOccurrence today b.date))) else none)
        rw [hno]
        exact incomingTail_ok today name bd o h

theorem collectUpcoming_ok (today : PyDate) (d : List (String × Record))
    (l : List (String × String)) (h : collectUpcoming today d = .ok l) :
    l = d.filterMap (fun kv => specEntry today kv.1 kv.2) := by
  induction d generalizing l with
  | nil =>
    unfold collectUpcoming at h
    rw [List.filterMap_nil]
    exact (Except.ok.inj h).symm
  | cons kv rest ih =>
    obtain ⟨n, r⟩ := kv
    unfold collectUpcoming at h
    split at h
    · exact Except.noConfusion h
    · next heq =>
      rw [List.filterMap_cons]
      rw [show specEntry today (n, r).1 (n, r).2 = none from (incomingEntry_ok today n r none heq).symm]
      exact ih l h
    · next pair heq =>
      split at h
      · exact Except.noConfusion h
      · next l2 heq2 =>
        rw [List.filterMap_cons]
        rw [show specEntry today (n, r).1 (n, r).2 = some pair from
          (incomingEntry_ok today n r (some pair) heq).symm]
        show l = pair :: rest.filterMap (fun kv => specEntry today kv.1 kv.2)
        rw [← ih l2 heq2]
        exact (Except.ok.inj h).symm

/-- Claim C7 (confirmed): whenever the loop of `get_incoming_birthdays`
completes without a date operation raising (the hypothesis; the spec
declares the leap-day edge case out of scope, and the raising runs return
an error text instead of entries), the emitted `upcoming` list is exactly,
in directory iteration order: one entry per record with a birthday whose
next occurrence (month/day in today's year, advanced one year if already
past) satisfies `today <= next_occurrence <= today + 7 days`, carrying the
congratulation date — the next occurrence shifted forward by
`7 - weekday` days to the following Monday when it falls on Saturday
(weekday 5) or Sunday (weekday 6), unchanged otherwise. -/
theorem C7_window_and_weekend_shift (book : AddressBook) (today : PyDate)
    (l : List (String × String))
    (h : collectUpcoming today book.data = .ok l) :
    l = book.data.filterMap (fun kv => specEntry today kv.1 kv.2) :=
  collectUpcoming_ok today book.data l h

/-- witness for `C7_window_and_weekend_shift`: Alice's birthday 15.06.2024
is a Saturday five days after today = 10.06.2024 (a Monday), so she is
included with the congratulation date shifted to Monday 17.06.2024. -/
theorem C7_witness :
    collectUpcoming ⟨2024, 6, 10⟩ bookAlice.data = .ok [("Alice", "17.06.2024")]
      ∧ [("Alice", "17.06.2024")]
          = bookAlice.data.filterMap (fun kv => specEntry ⟨2024, 6, 10⟩ kv.1 kv.2) :=
  ⟨rfl, C7_window_and_weekend_shift bookAlice ⟨2024, 6, 10⟩ [("Alice", "17.06.2024")] rfl⟩

theorem isDigitChar_iff (c : Char) : isDigitChar c = true ↔ 48 ≤ c.toNat ∧ c.toNat ≤ 57 := by
  simp [isDigitChar]

theorem digitVal_le_9 (c : Char) (h : isDigitChar c = true) : digitVal c ≤ 9 := by
  have := (isDigitChar_iff c).mp h
  unfold digitVal
  omega

theorem digit_ne_dot (c : Char) (h : isDigitChar c = true) : c ≠ '.' := by
  intro hc
  subst hc
  exact absurd h (by decide)

theorem splitDots_ne_nil (cs : List Char) : splitDots cs ≠ [] := by
  cases cs with
  | nil => simp [splitDots]
  | cons c rest =>
    unfold splitDots
    cases splitDots rest with
    | nil => simp
    | cons h0 t0 =>
      by_cases hc : c = '.'
      · simp [hc]
      · simp [hc]

theorem splitDots_one (cs xs : List Char) (h : splitDots cs = [xs]) : cs = xs := by
  induction cs generalizing xs with
  | nil =>
    simp only [splitDots, List.cons.injEq, and_true] at h
    exact h
  | cons c rest ih =>
    simp only [splitDots] at h
    cases hs : splitDots rest with
    | nil => exact absurd hs (splitDots_ne_nil rest)
    | cons h0 t0 =>
      simp only [hs] at h
      by_cases hc : c = '.'
      · rw [if_pos hc] at h
        injection h with h1 h2
        exact List.noConfusion h2
      · rw [if_neg hc] at h
        injection h with h1 h2
        rw [h2] at hs
        rw [← h1, ih h0 hs]

theorem splitDots_two (cs xs ys : List Char) (h : splitDots cs = [xs, ys]) :
    cs = xs ++ '.' :: ys := by
  induction cs generalizing xs ys with
  | nil =>
    unfold splitDots at h
    injection h with h1 h2
    exact List.noConfusion h2
  | cons c rest ih =>
    simp only [splitDots] at h
    cases hs : splitDots rest with
    | nil => exact absurd hs (splitDots_ne_nil rest)
    | cons h0 t0 =>
      simp only [hs] at h
      by_cases hc : c = '.'
      · rw [if_pos hc] at h
        injection h with h1 h2
        injection h2 with h3 h4
        rw [h3, h4] at hs
        rw [← h1, hc, splitDots_one rest ys hs]
        rfl
      · rw [if_neg hc] at h
        injection h with h1 h2
        rw [h2] at hs
        rw [← h1, List.cons_append]
        rw [ih h0 ys hs]

theorem splitDots_three (cs xs ys zs : List Char) (h : splitDots cs = [xs, ys, zs]) :
    cs = xs ++ '.' :: (ys ++ '.' :: zs) := by
  induction cs generalizing xs ys zs with
  | nil =>
    unfold splitDots at h
    injection h with h1 h2
    exact List.noConfusion h2
  | cons c rest ih =>
    simp only [splitDots] at h
    cases hs : splitDots rest with
    | nil => exact absurd hs (splitDots_ne_nil rest)
    | cons h0 t0 =>
      simp only [hs] at h
      by_cases hc : c = '.'
      · rw [if_pos hc] at h
        injection h with h1 h2
        injection h2 with h3 h4
        rw [h3, h4] at hs
        rw [← h1, hc, splitDots_two rest ys zs hs]
        rfl
      · rw [if_neg hc] at h
        injection h with h1 h2
        rw [h2] at hs
        rw [← h1, List.cons_append]
        rw [ih h0 ys zs hs]

theorem parseDay_some (cs : List Char) (d : Nat) (rest : List Char)
    (h : parseDay cs = some (d, rest)) :
    (∃ a b, cs = a :: b :: rest ∧ isDigitChar a = true ∧ isDigitChar b = true
        ∧ d = 10 * digitVal a + digitVal b ∧ 1 ≤ d ∧ d ≤ 31)
      ∨ (∃ a, cs = a :: rest ∧ isDigitChar a = true ∧ d = digitVal a ∧ 1 ≤ d ∧ d ≤ 9) := by
  match cs with
  | [] => exact absurd h (by simp [parseDay])
  | [a] =>
    simp only [parseDay] at h
    split at h
    · next hcond =>
      injection h with h
      injection h with h1 h2
      right
      refine ⟨a, by rw [← h2], hcond.1, h1.symm, ?_, ?_⟩
      · rw [← h1]
        exact hcond.2
      · rw [← h1]
        exact digitVal_le_9 a hcond.1
    · exact Option.noConfusion h
  | a :: b :: rest2 =>
    simp only [parseDay] at h
    split at h
    · next hcond =>
      injection h with h
      injection h with h1 h2
      left
      exact ⟨a, b, by rw [← h2], hcond.1, hcond.2.1, h1.symm, by omega, by omega⟩
    · split at h
      · next hcond2 =>
        injection h with h
        injection h with h1 h2
        right
        refine ⟨a, by rw [← h2], hcond2.1, h1.symm, ?_, ?_⟩
        · rw [← h1]
          exact hcond2.2
        · rw [← h1]
          exact digitVal_le_9 a hcond2.1
      · exact Option.noConfusion h

theorem parseMonth_some (cs : List Char) (m : Nat) (rest : List Char)
    (h : parseMonth cs = some (m, rest)) :
    (∃ a b, cs = a :: b :: rest ∧ isDigitChar a = true ∧ isDigitChar b = true
        ∧ m = 10 * digitVal a + digitVal b ∧ 1 ≤ m ∧ m ≤ 12)
      ∨ (∃ a, cs = a :: rest ∧ isDigitChar a = true ∧ m = digitVal a ∧ 1 ≤ m ∧ m ≤ 9) := by
  match cs with
  | [] => exact absurd h (by simp [parseMonth])
  | [a] =>
    simp only [parseMonth] at h
    split at h
    · next hcond =>
      injection h with h
      injection h with h1 h2
      right
      refine ⟨a, by rw [← h2], hcond.1, h1.symm, ?_, ?_⟩
      · rw [← h1]
        exact hcond.2
      · rw [← h1]
        exact digitVal_le_9 a hcond.1
    · exact Option.noConfusion h
  | a :: b :: rest2 =>
    simp only [parseMonth] at h
    split at h
    · next hcond =>
      injection h with h
      injection h with h1 h2
      left
      exact ⟨a, b, by rw [← h2], hcond.1, hcond.2.1, h1.symm, by omega, by omega⟩
    · split at h
      · next hcond2 =>
        injection h with h
        injection h with h1 h2
        right
        refine ⟨a, by rw [← h2], hcond2.1, h1.symm, ?_, ?_⟩
        · rw [← h1]
          exact hcond2.2
        · rw [← h1]
          exact digitVal_le_9 a hcond2.1
      · exact Option.noConfusion h

theorem parseDay_two_digits (a b : Char) (rest : List Char)
    (ha : isDigitChar a = true) (hb : isDigitChar b = true)
    (h1 : 1 ≤ 10 * digitVal a + digitVal b) (h2 : 10 * digitVal a + digitVal b ≤ 31) :
    parseDay (a :: b :: rest) = some (10 * digitVal a + digitVal b, rest) := by
  simp only [parseDay]
  rw [if_pos ⟨ha, hb, h1, h2⟩]

theorem parseDay_one_digit (a : Char) (rest : List Char)
    (ha : isDigitChar a = true) (h1 : 1 ≤ digitVal a) :
    parseDay (a :: '.' :: rest) = some (digitVal a, '.' :: rest) := by
  simp only [parseDay]
  rw [if_neg, if_pos ⟨ha, h1⟩]
  rintro ⟨ha2, hdot, h3⟩
  exact absurd hdot (by decide)

theorem parseMonth_two_digits (a b : Char) (rest : List Char)
    (ha : isDigitChar a = true) (hb : isDigitChar b = true)
    (h1 : 1 ≤ 10 * digitVal a + digitVal b) (h2 : 10 * digitVal a + digitVal b ≤ 12) :
    parseMonth (a :: b :: rest) = some (10 * digitVal a + digitVal b, rest) := by
  simp only [parseMonth]
  rw [if_pos ⟨ha, hb, h1, h2⟩]

theorem parseMonth_one_digit (a : Char) (rest : List Char)
    (ha : isDigitChar a = true) (h1 : 1 ≤ digitVal a) :
    parseMonth (a :: '.' :: rest) = some (digitVal a, '.' :: rest) := by
  simp only [parseMonth]
  rw [if_neg, if_pos ⟨ha, h1⟩]
  rintro ⟨ha2, hdot, h3⟩
  exact absurd hdot (by decide)

theorem fieldVal_one (a : Char) : fieldVal [a] = digitVal a := by
  simp [fieldVal]

theorem fieldVal_two (a b : Char) : fieldVal [a, b] = 10 * digitVal a + digitVal b := by
  simp [fieldVal]

theorem fieldVal_four (a b c d : Char) :
    fieldVal [a, b, c, d]
      = 1000 * digitVal a + 100 * digitVal b + 10 * digitVal c + digitVal d := by
  simp [fieldVal]
  ring

theorem splitDots_nodots (xs : List Char) (h : ∀ c ∈ xs, c ≠ '.') :
    splitDots xs = [xs] := by
  induction xs with
  | nil => rfl
  | cons c rest ih =>
    have hc : c ≠ '.' := h c (List.mem_cons_self _ _)
    simp only [splitDots, ih (fun x hx => h x (List.mem_cons_of_mem _ hx))]
    rw [if_neg hc]

theorem splitDots_append (xs ys : List Char) (h : ∀ c ∈ xs, c ≠ '.') :
    splitDots (xs ++ '.' :: ys) = xs :: splitDots ys := by
  induction xs with
  | nil =>
    cases hs : splitDots ys with
    | nil => exact absurd hs (splitDots_ne_nil ys)
    | cons h0 t0 =>
      simp only [List.nil_append, splitDots, hs]
      simp
  | cons c rest ih =>
    have hc : c ≠ '.' := h c (List.mem_cons_self _ _)
    simp only [List.cons_append, List.append_eq, splitDots,
      ih (fun x hx => h x (List.mem_cons_of_mem _ hx))]
    rw [if_neg hc]

theorem all_digits_no_dot (xs : List Char) (h : xs.all isDigitChar = true) :
    ∀ c ∈ xs, c ≠ '.' := by
  intro c hc
  rw [List.all_eq_true] at h
  exact digit_ne_dot c (h c hc)

theorem strptimeDMY_build (s : String) (dv mv : Nat) (r1 : List Char) (y1 y2 y3 y4 : Char)
    (hd : parseDay s.data = some (dv, '.' :: r1))
    (hm : parseMonth r1 = some (mv, '.' :: [y1, y2, y3, y4]))
    (hy1 : isDigitChar y1 = true) (hy2 : isDigitChar y2 = true)
    (hy3 : isDigitChar y3 = true) (hy4 : isDigitChar y4 = true) :
    strptimeDMY s
      = some (dv, mv,
          1000 * digitVal y1 + 100 * digitVal y2 + 10 * digitVal y3 + digitVal y4) := by
  unfold strptimeDMY
  simp only [hd, hm]
  rw [if_pos ⟨hy1, hy2, hy3, hy4, trivial⟩]

theorem birthdayTextOk_build (s : String) (ds ms ys : List Char)
    (hsplit : splitDots s.data = [ds, ms, ys])
    (hd1 : ds ≠ []) (hd2 : ds.all isDigitChar = true) (hd3 : ds.length ≤ 2)
    (hd4 : 1 ≤ fieldVal ds) (hd5 : fieldVal ds ≤ 31)
    (hm1 : ms ≠ []) (hm2 : ms.all isDigitChar = true) (hm3 : ms.length ≤ 2)
    (hm4 : 1 ≤ fieldVal ms) (hm5 : fieldVal ms ≤ 12)
    (hy1 : ys.length = 4) (hy2 : ys.all isDigitChar = true)
    (hv : isValidDate (fieldVal ys) (fieldVal ms) (fieldVal ds) = true) :
    birthdayTextOk s = true := by
  unfold birthdayTextOk
  simp only [hsplit, decide_eq_true_eq]
  exact ⟨hd1, hd2, hd3, hd4, hd5, hm1, hm2, hm3, hm4, hm5, hy1, hy2, hv⟩

theorem forward_assemble (s : String) (ds ms : List Char) (y1 y2 y3 y4 : Char) (d m y : Nat)
    (hsdata : s.data = ds ++ '.' :: (ms ++ '.' :: [y1, y2, y3, y4]))
    (hdall : ds.all isDigitChar = true) (hdne : ds ≠ []) (hdlen : ds.length ≤ 2)
    (hdv : fieldVal ds = d) (hd4 : 1 ≤ d) (hd5 : d ≤ 31)
    (hmall : ms.all isDigitChar = true) (hmne : ms ≠ []) (hmlen : ms.length ≤ 2)
    (hmv : fieldVal ms = m) (hm4 : 1 ≤ m) (hm5 : m ≤ 12)
    (hy1 : isDigitChar y1 = true) (hy2 : isDigitChar y2 = true)
    (hy3 : isDigitChar y3 = true) (hy4 : isDigitChar y4 = true)
    (hyv : fieldVal [y1, y2, y3, y4] = y)
    (hvalid : isValidDate y m d = true) :
    birthdayTextOk s = true := by
  have hys : ([y1, y2, y3, y4] : List Char).all isDigitChar = true := by
    simp [hy1, hy2, hy3, hy4]
  have hsplit : splitDots s.data = [ds, ms, [y1, y2, y3, y4]] := by
    rw [hsdata, splitDots_append ds _ (all_digits_no_dot ds hdall),
        splitDots_append ms _ (all_digits_no_dot ms hmall),
        splitDots_nodots _ (all_digits_no_dot _ hys)]
  exact birthdayTextOk_build s ds ms [y1, y2, y3, y4] hsplit hdne hdall hdlen
    (by rw [hdv]; exact hd4) (by rw [hdv]; exact hd5)
    hmne hmall hmlen (by rw [hmv]; exact hm4) (by rw [hmv]; exact hm5)
    (by simp) hys (by rw [hyv, hmv, hdv]; exact hvalid)

theorem birthday_ok_forward (s : String) (b : Birthday) (h : Birthday.mk? s = .ok b) :
    birthdayTextOk s = true := by
  unfold Birthday.mk? at h
  split at h
  · next d m y heq =>
    split at h
    · next hvalid =>
      clear h
      unfold strptimeDMY at heq
      split at heq
      · exact Option.noConfusion heq
      · next d0 r1 hpd =>
        split at heq
        · next r2 =>
          split at heq
          · exact Option.noConfusion heq
          · next m0 r3 hpm =>
            split at heq
            · next y1 y2 y3 y4 r4 =>
              split at heq
              · next hyds =>
                injection heq with heq
                injection heq with hd heq
                injection heq with hm hy
                obtain ⟨hy1, hy2, hy3, hy4, hr4⟩ := hyds
                subst hr4
                subst hd
                subst hm
                rcases parseDay_some _ _ _ hpd with
                  ⟨a, b2, hcs, ha, hb2, hdv0, hd1b, hd2b⟩ | ⟨a, hcs, ha, hdv0, hd1b, hd2b⟩ <;>
                  rcases parseMonth_some _ _ _ hpm with
                    ⟨c, c2, hr2, hc, hc2, hmv0, hm1b, hm2b⟩ | ⟨c, hr2, hc, hmv0, hm1b, hm2b⟩
                · refine forward_assemble s [a, b2] [c, c2] y1 y2 y3 y4 d0 m0 y
                    (by simp [hcs, hr2]) (by simp [ha, hb2]) (by simp) (by simp)
                    (by rw [fieldVal_two, hdv0]) hd1b hd2b
                    (by simp [hc, hc2]) (by simp) (by simp)
                    (by rw [fieldVal_two, hmv0]) hm1b hm2b
                    hy1 hy2 hy3 hy4 (by rw [fieldVal_four, hy]) hvalid
                · refine forward_assemble s [a, b2] [c] y1 y2 y3 y4 d0 m0 y
                    (by simp [hcs, hr2]) (by simp [ha, hb2]) (by simp) (by simp)
                    (by rw [fieldVal_two, hdv0]) hd1b hd2b
                    (by simp [hc]) (by simp) (by simp)
                    (by rw [fieldVal_one, hmv0]) hm1b (by omega)
                    hy1 hy2 hy3 hy4 (by rw [fieldVal_four, hy]) hvalid
                · refine forward_assemble s [a] [c, c2] y1 y2 y3 y4 d0 m0 y
                    (by simp [hcs, hr2]) (by simp [ha]) (by simp) (by simp)
                    (by rw [fieldVal_one, hdv0]) hd1b (by omega)
                    (by simp [hc, hc2]) (by simp) (by simp)
                    (by rw [fieldVal_two, hmv0]) hm1b hm2b
                    hy1 hy2 hy3 hy4 (by rw [fieldVal_four, hy]) hvalid
                · refine forward_assemble s [a] [c] y1 y2 y3 y4 d0 m0 y
                    (by simp [hcs, hr2]) (by simp [ha]) (by simp) (by simp)
                    (by rw [fieldVal_one, hdv0]) hd1b (by omega)
                    (by simp [hc]) (by simp) (by simp)
                    (by rw [fieldVal_one, hmv0]) hm1b (by omega)
                    hy1 hy2 hy3 hy4 (by rw [fieldVal_four, hy]) hvalid
              · exact Option.noConfusion heq
            · exact Option.noConfusion heq
        · exact Option.noConfusion heq
    · exact Except.noConfusion h
  · exact Except.noConfusion h

theorem birthday_ok_backward (s : String) (hok : birthdayTextOk s = true) :
    ∃ b, Birthday.mk? s = .ok b := by
  unfold birthdayTextOk at hok
  split at hok
  · next ds ms ys heq =>
    rw [decide_eq_true_eq] at hok
    obtain ⟨hdne, hdall, hdlen, hd4, hd5, hmne, hmall, hmlen, hm4, hm5, hylen, hyall, hv⟩ := hok
    have hsdata := splitDots_three _ _ _ _ heq
    cases ys with
    | nil => simp at hylen
    | cons y1 t1 =>
    cases t1 with
    | nil => simp at hylen
    | cons y2 t2 =>
    cases t2 with
    | nil => simp at hylen
    | cons y3 t3 =>
    cases t3 with
    | nil => simp at hylen
    | cons y4 t4 =>
    cases t4 with
    | cons y5 t5 => simp at hylen
    | nil =>
    simp only [List.all_cons, List.all_nil, Bool.and_eq_true, and_true] at hyall
    obtain ⟨hy1, hy2, hy3, hy4⟩ := hyall
    have hpm : parseMonth (ms ++ '.' :: [y1, y2, y3, y4])
        = some (fieldVal ms, '.' :: [y1, y2, y3, y4]) := by
      cases ms with
      | nil => exact absurd rfl hmne
      | cons c t =>
      cases t with
      | nil =>
        simp only [List.all_cons, List.all_nil, Bool.and_eq_true, and_true] at hmall
        rw [fieldVal_one]
        rw [fieldVal_one] at hm4
        exact parseMonth_one_digit c _ hmall hm4
      | cons c2 t2 =>
      cases t2 with
      | cons c3 t3 => simp at hmlen
      | nil =>
        simp only [List.all_cons, List.all_nil, Bool.and_eq_true, and_true] at hmall
        obtain ⟨hc, hc2⟩ := hmall
        rw [fieldVal_two]
        rw [fieldVal_two] at hm4 hm5
        exact parseMonth_two_digits c c2 _ hc hc2 hm4 hm5
    have hpd : parseDay s.data
        = some (fieldVal ds, '.' :: (ms ++ '.' :: [y1, y2, y3, y4])) := by
      cases ds with
      | nil => exact absurd rfl hdne
      | cons a t =>
      cases t with
      | nil =>
        simp only [List.all_cons, List.all_nil, Bool.and_eq_true, and_true] at hdall
        rw [fieldVal_one]
        rw [fieldVal_one] at hd4
        rw [hsdata]
        exact parseDay_one_digit a _ hdall hd4
      | cons a2 t2 =>
      cases t2 with
      | cons a3 t3 => simp at hdlen
      | nil =>
        simp only [List.all_cons, List.all_nil, Bool.and_eq_true, and_true] at hdall
        obtain ⟨ha, ha2⟩ := hdall
        rw [fieldVal_two]
        rw [fieldVal_two] at hd4 hd5
        rw [hsdata]
        exact parseDay_two_digits a a2 _ ha ha2 hd4 hd5
    have hstr := strptimeDMY_build s (fieldVal ds) (fieldVal ms)
      (ms ++ '.' :: [y1, y2, y3, y4]) y1 y2 y3 y4 hpd hpm hy1 hy2 hy3 hy4
    rw [fieldVal_four] at hv
    refine ⟨⟨s, ⟨1000 * digitVal y1 + 100 * digitVal y2 + 10 * digitVal y3 + digitVal y4,
      fieldVal ms, fieldVal ds⟩⟩, ?_⟩
    unfold Birthday.mk?
    simp only [hstr]
    rw [if_pos hv]
  · exact Bool.noConfusion hok

/-- Claim C6, counterexample: "5.6.2024" is not in the zero-padded
DD.MM.YYYY format (the strftime rendering of that date is "05.06.2024"),
yet `Birthday("5.6.2024")` validates successfully: CPython's `strptime`
accepts one-digit day and month fields for `%d` and `%m`.  This refutes
the claim that any text not in the exact zero-padded format is
rejected. -/
theorem C6_counterexample :
    Birthday.mk? "5.6.2024" = .ok ⟨"5.6.2024", ⟨2024, 6, 5⟩⟩
      ∧ strftime_dmY ⟨2024, 6, 5⟩ ≠ "5.6.2024" := by
  refine ⟨rfl, by decide⟩

/-- Claim C6, amended: birthday validation succeeds exactly when the text
consists of three dot-separated all-digit groups — a day group of one
digit (1-9, zero-padding NOT required) or two digits with value 01..31, a
month group of one digit or two digits with value 01..12, and a year group
of exactly four digits — forming a valid calendar date in `datetime`'s
range; impossible calendar dates (such as 31.04 or a Feb 29 in a non-leap
year) are rejected, as the claim states, but zero-padding of day and month
is optional, not mandatory. -/
theorem C6_amended (s : String) :
    (∃ b, Birthday.mk? s = .ok b) ↔ birthdayTextOk s = true := by
  constructor
  · rintro ⟨b, hb⟩
    exact birthday_ok_forward s b hb
  · exact birthday_ok_backward s
